import Mathlib

/-!
Verification of the PCM-mem library (programus/PCM-mem) against its
natural-language specification.

The repository ships only the public header `src/PCMmem.h`; the
implementation file with the interrupt handlers and function bodies is not
present. Following the header's documentation, the behaviour of every
operation is therefore modelled from the specification: the playback state
machine (Sample Clock tick, PWM Generator tick), the control operations
`startPlayback` / `stopPlayback`, pin selection `setSpeakerPin` /
`getSpeakerPin`, the timer-allocation switch `useTimer0`, and the substitute
timekeeping functions `altMillis` / `altDelay` driven by the AltClock tick
counter.

Machine bytes are modelled as `Nat` (sample values 0..255); the sample
buffer is a `List Nat` paired with an explicit `length` field, mirroring the
C signature `startPlayback(unsigned char const *data, int length, bool
loop)`; out-of-range reads use `List.getD` with default 0, standing for
`pgm_read_byte`.
-/

/-- Modelled from the spec: the neutral output level the stop sequence
forces on the output pin (the spec allows mid-rail or low; modelled as the
low level 0). The implementation file that would fix the concrete value is
missing from the repository. -/
def neutralDuty : Nat := 0

/-- Modelled from the spec and the header documentation of
`setSpeakerPin`: the documented default speaker pin ("Pin 11 is the default
one"). -/
def defaultPin : Nat := 11

/-- Modelled from the spec: the process-wide state shared by the two
interrupt handlers and the control operations. It bundles the SampleBuffer
(`data`, `length`), the PlaybackState (`position`, `looping`, `active`),
the DutyCycleRegister (`dutyCycle`), the selected SpeakerPin, the
TimerAllocationChoice (`useT0`), the AltClock tick counter (`altClock`) and
whether the PWM Generator interrupt is armed (`pwmActive`). The
implementation file holding these globals is missing from the repository. -/
@[ext]
structure PCMState where
  data : List Nat
  length : Nat
  position : Nat
  looping : Bool
  active : Bool
  dutyCycle : Nat
  speakerPin : Nat
  useT0 : Bool
  altClock : Nat
  pwmActive : Bool
deriving Repr, DecidableEq

/-- Modelled from the spec: the startup state — playback inactive, no
buffer, duty cycle at the neutral level, default speaker pin, timer 1
selected (the default of `useTimer0`), AltClock at zero, PWM Generator
disarmed. -/
def initState : PCMState :=
  { data := [], length := 0, position := 0, looping := false, active := false,
    dutyCycle := neutralDuty, speakerPin := defaultPin, useT0 := false,
    altClock := 0, pwmActive := false }

/-- Modelled from the spec: `stopPlayback()` disarms the interrupts, sets
`active := false` and forces the output pin to the neutral level. The
implementation file defining it is missing from the repository. -/
def stopPlayback (s : PCMState) : PCMState :=
  { s with active := false, dutyCycle := neutralDuty, pwmActive := false }

/-- Modelled from the spec: `startPlayback(data, length, loop)` supersedes
any running playback with stop-then-start semantics, installs the new
buffer, resets `position` to 0, sets `looping`, sets `active := true` and
arms the Sample Clock and PWM Generator interrupts. The implementation file
defining it is missing from the repository. -/
def startPlayback (d : List Nat) (len : Nat) (loop : Bool) (s : PCMState) : PCMState :=
  let s0 := stopPlayback s
  { s0 with
    data := d, length := len, position := 0, looping := loop,
    active := true, pwmActive := true }

/-- Modelled from the spec: one Sample Clock tick. While `active`: if
`position < length`, publish `data[position]` to the DutyCycleRegister and
increment `position`; else if `looping`, reset `position := 0` and
republish `data[0]`; else perform the stop sequence. When inactive the
interrupt does not fire, modelled as the identity. The implementation file
with this interrupt handler is missing from the repository. -/
def sampleTick (s : PCMState) : PCMState :=
  if s.active then
    if s.position < s.length then
      { s with dutyCycle := s.data.getD s.position 0, position := s.position + 1 }
    else if s.looping then
      { s with position := 0, dutyCycle := s.data.getD 0 0 }
    else
      stopPlayback s
  else s

/-- Modelled from the spec: `n` consecutive Sample Clock ticks, earliest
tick applied first. -/
def sampleTicks : Nat → PCMState → PCMState
  | 0, s => s
  | n + 1, s => sampleTicks n (sampleTick s)

/-- Modelled from the spec: one PWM Generator tick. When the PWM Generator
is armed it drives the output pin from the DutyCycleRegister (not part of
the modelled state) and, when the timer-commandeering choice is in effect,
increments the AltClock tick counter; in every other configuration the
counter is untouched. The implementation file with this interrupt handler
is missing from the repository. -/
def pwmTick (s : PCMState) : PCMState :=
  if s.pwmActive then
    if s.useT0 then { s with altClock := s.altClock + 1 } else s
  else s

/-- Modelled from the spec: `useTimer0(use)` records the Timer Allocation
Choice. The implementation file defining it is missing from the
repository. -/
def useTimer0 (use : Bool) (s : PCMState) : PCMState :=
  { s with useT0 := use }

/-- Modelled from the spec and the header documentation: `setSpeakerPin`
accepts exactly pins 3 and 11; any other input is silently mapped to the
default pin 11. It records the pin actually selected and returns it. The
implementation file defining it is missing from the repository. -/
def setSpeakerPin (pin : Nat) (s : PCMState) : Nat × PCMState :=
  let actual := if pin = 3 ∨ pin = 11 then pin else defaultPin
  (actual, { s with speakerPin := actual })

/-- Modelled from the spec: `getSpeakerPin()` returns the last accepted
pin. The implementation file defining it is missing from the repository. -/
def getSpeakerPin (s : PCMState) : Nat := s.speakerPin

/-- Modelled from the spec: the PWM Generator cadence is 62500 ticks per
second, so one AltClock tick is 16 microseconds; `altMicros()` converts the
AltClock counter to elapsed microseconds. The implementation file defining
it is missing from the repository. -/
def altMicros (s : PCMState) : Nat := s.altClock * 16

/-- Modelled from the spec: `altMillis()` converts the AltClock counter to
elapsed milliseconds. The implementation file defining it is missing from
the repository. -/
def altMillis (s : PCMState) : Nat := s.altClock * 16 / 1000

/-- Modelled from the spec: the busy-wait loop of `altDelay` — it polls
AltClock (time passing is modelled as PWM Generator ticks) until the target
`altMillis` reading is reached. The `fuel` argument bounds the number of
polls; the real loop is unbounded and never terminates when AltClock does
not advance, so the model is meaningful under alternate-timer mode, where
the fuel chosen by `altDelay` is shown sufficient. -/
def pollWait : Nat → Nat → PCMState → PCMState
  | 0, _, s => s
  | fuel + 1, target, s =>
    if target ≤ altMillis s then s else pollWait fuel target (pwmTick s)

/-- Modelled from the spec: `altDelay(ms)` busy-waits, polling AltClock,
until at least `ms` milliseconds have elapsed on it. The implementation
file defining it is missing from the repository. -/
def altDelay (ms : Nat) (s : PCMState) : PCMState :=
  pollWait (1000 * ms) (altMillis s + ms) s


/-! ### Helper lemmas about tick iteration -/

theorem sampleTicks_succ (n : Nat) (s : PCMState) :
    sampleTicks (n + 1) s = sampleTick (sampleTicks n s) := by
  induction n generalizing s with
  | zero => rfl
  | succ m ih => exact ih (sampleTick s)

theorem sampleTicks_add (m n : Nat) (s : PCMState) :
    sampleTicks (m + n) s = sampleTicks n (sampleTicks m s) := by
  induction n with
  | zero => rfl
  | succ k ih => rw [← Nat.add_assoc, sampleTicks_succ, sampleTicks_succ, ih]

/-- While the position stays strictly below the length, a run of `j` Sample
Clock ticks from an active state takes the first branch `j` times: the
position advances by `j` and the duty cycle holds the last published
sample; all other fields are untouched. -/
theorem sampleTicks_run (j : Nat) (s : PCMState) (ha : s.active = true)
    (hj : s.position + j ≤ s.length) :
    sampleTicks j s =
      { s with
        position := s.position + j,
        dutyCycle := if j = 0 then s.dutyCycle
                     else s.data.getD (s.position + j - 1) 0 } := by
  induction j with
  | zero => simp; rfl
  | succ k ih =>
      have hk : s.position + k ≤ s.length := by omega
      have hlt : s.position + k < s.length := by omega
      rw [sampleTicks_succ, ih hk]
      simp [sampleTick, ha, hlt]
      omega

/-! ### Claim theorems -/

/-- C1: for every active playback state, one Sample Clock tick behaves as
specified: if `position < length` it publishes `data[position]` to the
DutyCycleRegister and increments `position` by one; else if `looping` is
set it resets `position` to 0 and republishes `data[0]`; else it performs
the stop sequence. -/
theorem sampleTick_active_spec (s : PCMState) (h : s.active = true) :
    (s.position < s.length →
      (sampleTick s).dutyCycle = s.data.getD s.position 0 ∧
      (sampleTick s).position = s.position + 1) ∧
    (s.length ≤ s.position → s.looping = true →
      (sampleTick s).position = 0 ∧
      (sampleTick s).dutyCycle = s.data.getD 0 0) ∧
    (s.length ≤ s.position → s.looping = false →
      sampleTick s = stopPlayback s) := by
  refine ⟨fun hlt => ?_, fun hge hloop => ?_, fun hge hloop => ?_⟩
  · simp [sampleTick, h, hlt]
  · simp [sampleTick, h, Nat.not_lt.mpr hge, hloop]
  · simp [sampleTick, h, Nat.not_lt.mpr hge, hloop]

/-- Witness for C1 at a concrete active state. -/
theorem sampleTick_active_spec_witness :
    (startPlayback [5] 1 false initState).active = true ∧
    (((startPlayback [5] 1 false initState).position <
        (startPlayback [5] 1 false initState).length →
      (sampleTick (startPlayback [5] 1 false initState)).dutyCycle =
        (startPlayback [5] 1 false initState).data.getD
          (startPlayback [5] 1 false initState).position 0 ∧
      (sampleTick (startPlayback [5] 1 false initState)).position =
        (startPlayback [5] 1 false initState).position + 1) ∧
    ((startPlayback [5] 1 false initState).length ≤
        (startPlayback [5] 1 false initState).position →
      (startPlayback [5] 1 false initState).looping = true →
      (sampleTick (startPlayback [5] 1 false initState)).position = 0 ∧
      (sampleTick (startPlayback [5] 1 false initState)).dutyCycle =
        (startPlayback [5] 1 false initState).data.getD 0 0) ∧
    ((startPlayback [5] 1 false initState).length ≤
        (startPlayback [5] 1 false initState).position →
      (startPlayback [5] 1 false initState).looping = false →
      sampleTick (startPlayback [5] 1 false initState) =
        stopPlayback (startPlayback [5] 1 false initState))) :=
  ⟨by decide, sampleTick_active_spec (startPlayback [5] 1 false initState) (by decide)⟩

/-- C5: `stopPlayback` sets `active := false`, forces the output to the
neutral duty cycle, and is idempotent: a second call leaves the state
exactly as after the first. -/
theorem stopPlayback_spec (s : PCMState) :
    (stopPlayback s).active = false ∧
    (stopPlayback s).dutyCycle = neutralDuty ∧
    stopPlayback (stopPlayback s) = stopPlayback s :=
  ⟨rfl, rfl, rfl⟩

/-- C6: pin selection round-trip — `setSpeakerPin v` returns `v` when `v`
is one of the two valid pins and the default pin otherwise, a subsequent
`getSpeakerPin` returns the same value, and `getSpeakerPin` on the startup
state returns the default pin. -/
theorem speakerPin_roundtrip (v : Nat) (s : PCMState) :
    (setSpeakerPin v s).1 = (if v = 3 ∨ v = 11 then v else defaultPin) ∧
    getSpeakerPin (setSpeakerPin v s).2 = (if v = 3 ∨ v = 11 then v else defaultPin) ∧
    getSpeakerPin initState = defaultPin :=
  ⟨rfl, rfl, rfl⟩

/-- C8: the AltClock counter advances exactly when a PWM Generator tick
fires while the PWM Generator is armed and the timer-commandeering choice
is in effect; no other operation (Sample Clock tick, start, stop, timer
selection, pin selection) advances it. -/
theorem altClock_only_pwm_commandeered (s : PCMState) (d : List Nat)
    (len : Nat) (loop use : Bool) (p : Nat) :
    (pwmTick s).altClock =
      (if s.pwmActive && s.useT0 then s.altClock + 1 else s.altClock) ∧
    (sampleTick s).altClock = s.altClock ∧
    (startPlayback d len loop s).altClock = s.altClock ∧
    (stopPlayback s).altClock = s.altClock ∧
    (useTimer0 use s).altClock = s.altClock ∧
    ((setSpeakerPin p s).2).altClock = s.altClock := by
  refine ⟨?_, ?_, rfl, rfl, rfl, rfl⟩
  · cases hp : s.pwmActive <;> cases ht : s.useT0 <;> simp [pwmTick, hp, ht]
  · unfold sampleTick
    split
    · split
      · rfl
      · split <;> rfl
    · rfl

/-- C10: the two valid speaker pins are concretely 3 and 11, and the
documented default — selected at startup, returned for any other input,
and reported by `getSpeakerPin` before any selection — is pin 11. -/
theorem speakerPin_constants (v : Nat) (s : PCMState) (h3 : v ≠ 3) (h11 : v ≠ 11) :
    defaultPin = 11 ∧
    (setSpeakerPin 3 s).1 = 3 ∧
    (setSpeakerPin 11 s).1 = 11 ∧
    (setSpeakerPin v s).1 = 11 ∧
    getSpeakerPin ((setSpeakerPin v s).2) = 11 ∧
    getSpeakerPin initState = 11 := by
  refine ⟨rfl, by simp [setSpeakerPin], by simp [setSpeakerPin], ?_, ?_⟩
  · simp [setSpeakerPin, h3, h11, defaultPin]
  · simp [setSpeakerPin, getSpeakerPin, h3, h11, defaultPin, initState]

/-- Witness for C10 at the invalid pin 7. -/
theorem speakerPin_constants_witness :
    ((7 : Nat) ≠ 3 ∧ (7 : Nat) ≠ 11) ∧
    (defaultPin = 11 ∧
     (setSpeakerPin 3 initState).1 = 3 ∧
     (setSpeakerPin 11 initState).1 = 11 ∧
     (setSpeakerPin 7 initState).1 = 11 ∧
     getSpeakerPin ((setSpeakerPin 7 initState).2) = 11 ∧
     getSpeakerPin initState = 11) :=
  ⟨by decide, speakerPin_constants 7 initState (by decide) (by decide)⟩

/-- C2 counterexample: with `data = [0,128,255,64]`, `length = 4`,
`loop = false`, playback is still active after exactly `length = 4` Sample
Clock ticks — the tick rule of the spec publishes the last sample on tick 4
and only runs the stop sequence on tick 5, so `active` has not become false
after exactly `length` ticks. -/
theorem nonloop_halt_counterexample :
    ¬ ((sampleTicks 4 (startPlayback [0, 128, 255, 64] 4 false initState)).active = false) := by
  decide

/-- C2 (amended): for every buffer with `length > 0` started non-looping,
ticks `1..length` publish `data[0..length-1]` with playback still active,
and on tick `length + 1` the stop sequence runs: `active` becomes false and
the duty cycle returns to neutral. In particular for `data = [0,128,255,64]`
the DutyCycleRegister takes the value sequence `0,128,255,64` and then
playback halts. -/
theorem nonloop_run_halts (d : List Nat) (len : Nat) (s : PCMState) (h : 0 < len) :
    (∀ k, k < len →
      (sampleTicks (k + 1) (startPlayback d len false s)).dutyCycle = d.getD k 0 ∧
      (sampleTicks (k + 1) (startPlayback d len false s)).active = true) ∧
    (sampleTicks (len + 1) (startPlayback d len false s)).active = false ∧
    (sampleTicks (len + 1) (startPlayback d len false s)).dutyCycle = neutralDuty := by
  have hrun : ∀ j, j ≤ len →
      sampleTicks j (startPlayback d len false s) =
        { startPlayback d len false s with
          position := (startPlayback d len false s).position + j,
          dutyCycle := if j = 0 then (startPlayback d len false s).dutyCycle
                       else (startPlayback d len false s).data.getD
                         ((startPlayback d len false s).position + j - 1) 0 } := by
    intro j hj
    exact sampleTicks_run j _ rfl (by simp [startPlayback, stopPlayback]; omega)
  refine ⟨fun k hk => ?_, ?_⟩
  · rw [hrun (k + 1) (by omega)]
    simp [startPlayback, stopPlayback]
  · rw [sampleTicks_succ, hrun len (by omega)]
    have hne : len ≠ 0 := by omega
    simp [sampleTick, startPlayback, stopPlayback, hne]

/-- Witness for the amended C2 on the spec's own scenario. -/
theorem nonloop_run_halts_witness :
    0 < 4 ∧
    ((∀ k, k < 4 →
      (sampleTicks (k + 1) (startPlayback [0, 128, 255, 64] 4 false initState)).dutyCycle =
        [0, 128, 255, 64].getD k 0 ∧
      (sampleTicks (k + 1) (startPlayback [0, 128, 255, 64] 4 false initState)).active = true) ∧
    (sampleTicks (4 + 1) (startPlayback [0, 128, 255, 64] 4 false initState)).active = false ∧
    (sampleTicks (4 + 1) (startPlayback [0, 128, 255, 64] 4 false initState)).dutyCycle =
      neutralDuty) :=
  ⟨by decide, nonloop_run_halts [0, 128, 255, 64] 4 initState (by decide)⟩

/-- C3 counterexample: with `data = [0,128,255,64]`, `length = 4`,
`loop = true`, the claimed DutyCycleRegister sequence
`0,128,255,64,0,128,...` says tick 6 publishes 128; under the spec's tick
rule the wrap tick (tick 5) resets the position to 0 and republishes
`data[0]`, so tick 6 publishes `data[0] = 0` again, not 128. -/
theorem loop_sequence_counterexample :
    ¬ ((sampleTicks 6 (startPlayback [0, 128, 255, 64] 4 true initState)).dutyCycle = 128) := by
  decide

/-- A looping playback standing at position 0 returns to the same state
after `length + 1` ticks: `length` publishing ticks and one wrap tick that
resets the position and republishes `data[0]`. -/
theorem loop_wrap (t : PCMState) (ha : t.active = true) (hl : t.looping = true)
    (hp : t.position = 0) (hlen : 0 < t.length) :
    sampleTicks (t.length + 1) t =
      { t with position := 0, dutyCycle := t.data.getD 0 0 } := by
  rw [sampleTicks_succ, sampleTicks_run t.length t ha (by omega)]
  have hne : t.length ≠ 0 := by omega
  simp [sampleTick, ha, hl, hp, hne]

/-- A state fixed by a run of `p` ticks is fixed by any number of such
runs. -/
theorem sampleTicks_cycle (p : Nat) (t : PCMState)
    (hfix : sampleTicks p t = t) : ∀ k, sampleTicks (k * p) t = t := by
  intro k
  induction k with
  | zero => rw [Nat.zero_mul]; rfl
  | succ m ih => rw [Nat.succ_mul, sampleTicks_add, ih, hfix]

/-- C3 (amended): for every buffer with `length > 0` started looping, ticks
`1..length` publish `data[0..length-1]`; the wrap tick `length + 1` resets
the position to 0 and republishes `data[0]`, with playback still active;
and the behaviour repeats with period `length + 1` indefinitely until
`stopPlayback` is called — so the DutyCycleRegister sequence for
`data = [0,128,255,64]` is `0,128,255,64` followed by the repeating block
`0,0,128,255,64` (`data[0]` is published twice in a row at each wrap), not
`0,128,255,64,0,128,...`. -/
theorem loop_periodic (d : List Nat) (len : Nat) (s : PCMState) (h : 0 < len) :
    (sampleTicks (len + 1) (startPlayback d len true s)).position = 0 ∧
    (sampleTicks (len + 1) (startPlayback d len true s)).dutyCycle = d.getD 0 0 ∧
    (sampleTicks (len + 1) (startPlayback d len true s)).active = true ∧
    (∀ k, k < len →
      (sampleTicks (k + 1) (startPlayback d len true s)).dutyCycle = d.getD k 0) ∧
    ∀ k, sampleTicks ((k + 1) * (len + 1)) (startPlayback d len true s) =
         sampleTicks (len + 1) (startPlayback d len true s) := by
  have hA : sampleTicks (len + 1) (startPlayback d len true s) =
      { startPlayback d len true s with position := 0, dutyCycle := d.getD 0 0 } :=
    loop_wrap (startPlayback d len true s) rfl rfl rfl h
  have hB : sampleTicks (len + 1)
      ({ startPlayback d len true s with position := 0, dutyCycle := d.getD 0 0 }) =
      { startPlayback d len true s with position := 0, dutyCycle := d.getD 0 0 } :=
    loop_wrap { startPlayback d len true s with position := 0, dutyCycle := d.getD 0 0 }
      rfl rfl rfl h
  refine ⟨by rw [hA], by rw [hA], by rw [hA]; rfl, fun k hk => ?_, fun k => ?_⟩
  · rw [sampleTicks_run (k + 1) _ rfl (by simp [startPlayback, stopPlayback]; omega)]
    simp [startPlayback, stopPlayback]
  · rw [show (k + 1) * (len + 1) = (len + 1) + k * (len + 1) from by ring,
        sampleTicks_add, hA, sampleTicks_cycle (len + 1) _ hB k]

/-- Witness for the amended C3 on the spec's own scenario. -/
theorem loop_periodic_witness :
    0 < 4 ∧
    ((sampleTicks (4 + 1) (startPlayback [0, 128, 255, 64] 4 true initState)).position = 0 ∧
    (sampleTicks (4 + 1) (startPlayback [0, 128, 255, 64] 4 true initState)).dutyCycle =
      [0, 128, 255, 64].getD 0 0 ∧
    (sampleTicks (4 + 1) (startPlayback [0, 128, 255, 64] 4 true initState)).active = true ∧
    (∀ k, k < 4 →
      (sampleTicks (k + 1) (startPlayback [0, 128, 255, 64] 4 true initState)).dutyCycle =
        [0, 128, 255, 64].getD k 0) ∧
    ∀ k, sampleTicks ((k + 1) * (4 + 1)) (startPlayback [0, 128, 255, 64] 4 true initState) =
         sampleTicks (4 + 1) (startPlayback [0, 128, 255, 64] 4 true initState)) :=
  ⟨by decide, loop_periodic [0, 128, 255, 64] 4 initState (by decide)⟩

/-- A Sample Clock tick keeps the installed buffer and only ever writes the
neutral level or a sample of that buffer to the DutyCycleRegister. -/
theorem sampleTick_duty_inv (d : List Nat) (len : Nat) (h : 0 < len)
    (t : PCMState) (hd : t.data = d) (hl : t.length = len)
    (hduty : t.dutyCycle = neutralDuty ∨ ∃ i, i < len ∧ t.dutyCycle = d.getD i 0) :
    (sampleTick t).data = d ∧ (sampleTick t).length = len ∧
    ((sampleTick t).dutyCycle = neutralDuty ∨
      ∃ i, i < len ∧ (sampleTick t).dutyCycle = d.getD i 0) := by
  unfold sampleTick
  split
  · split
    · next hlt =>
        subst hd hl
        exact ⟨rfl, rfl, Or.inr ⟨t.position, hlt, by simp⟩⟩
    · split
      · exact ⟨hd, hl, Or.inr ⟨0, h, by simp [hd]⟩⟩
      · exact ⟨hd, hl, Or.inl rfl⟩
  · exact ⟨hd, hl, hduty⟩

/-- C4: `startPlayback` resets the position to 0, records the loop flag,
activates playback, and supersedes any running playback with
stop-then-start semantics: the call leaves the DutyCycleRegister at the
neutral level, and every subsequent Sample Clock tick writes either the
neutral level or a sample of the new buffer — never a sample index of the
old buffer. -/
theorem startPlayback_spec (d : List Nat) (len : Nat) (loop : Bool) (s : PCMState)
    (h : 0 < len) :
    (startPlayback d len loop s).position = 0 ∧
    (startPlayback d len loop s).looping = loop ∧
    (startPlayback d len loop s).active = true ∧
    startPlayback d len loop s = startPlayback d len loop (stopPlayback s) ∧
    (startPlayback d len loop s).dutyCycle = neutralDuty ∧
    ∀ n, (sampleTicks n (startPlayback d len loop s)).dutyCycle = neutralDuty ∨
      ∃ i, i < len ∧ (sampleTicks n (startPlayback d len loop s)).dutyCycle = d.getD i 0 := by
  have key : ∀ n, (sampleTicks n (startPlayback d len loop s)).data = d ∧
      (sampleTicks n (startPlayback d len loop s)).length = len ∧
      ((sampleTicks n (startPlayback d len loop s)).dutyCycle = neutralDuty ∨
        ∃ i, i < len ∧ (sampleTicks n (startPlayback d len loop s)).dutyCycle = d.getD i 0) := by
    intro m
    induction m with
    | zero => exact ⟨rfl, rfl, Or.inl rfl⟩
    | succ k ih =>
        rw [sampleTicks_succ]
        exact sampleTick_duty_inv d len h _ ih.1 ih.2.1 ih.2.2
  exact ⟨rfl, rfl, rfl, rfl, rfl, fun n => (key n).2.2⟩

/-- Witness for C4 at a concrete call superseding an active playback. -/
theorem startPlayback_spec_witness :
    0 < 2 ∧
    ((startPlayback [9, 7] 2 true (startPlayback [1, 2, 3] 3 false initState)).position = 0 ∧
    (startPlayback [9, 7] 2 true (startPlayback [1, 2, 3] 3 false initState)).looping = true ∧
    (startPlayback [9, 7] 2 true (startPlayback [1, 2, 3] 3 false initState)).active = true ∧
    startPlayback [9, 7] 2 true (startPlayback [1, 2, 3] 3 false initState) =
      startPlayback [9, 7] 2 true (stopPlayback (startPlayback [1, 2, 3] 3 false initState)) ∧
    (startPlayback [9, 7] 2 true (startPlayback [1, 2, 3] 3 false initState)).dutyCycle =
      neutralDuty ∧
    ∀ n, (sampleTicks n (startPlayback [9, 7] 2 true
        (startPlayback [1, 2, 3] 3 false initState))).dutyCycle = neutralDuty ∨
      ∃ i, i < 2 ∧ (sampleTicks n (startPlayback [9, 7] 2 true
        (startPlayback [1, 2, 3] 3 false initState))).dutyCycle = [9, 7].getD i 0) :=
  ⟨by decide, startPlayback_spec [9, 7] 2 true (startPlayback [1, 2, 3] 3 false initState)
    (by decide)⟩

/-- C7: the invariant `position ≤ length` (positions are naturals, so
`0 ≤ position` is inherent) holds in the startup state and is preserved by
`startPlayback`, `stopPlayback` and every Sample Clock tick, in looping and
non-looping mode alike. -/
theorem position_invariant (d : List Nat) (len : Nat) (loop : Bool) (s : PCMState)
    (h : s.position ≤ s.length) :
    initState.position ≤ initState.length ∧
    (startPlayback d len loop s).position ≤ (startPlayback d len loop s).length ∧
    (stopPlayback s).position ≤ (stopPlayback s).length ∧
    (sampleTick s).position ≤ (sampleTick s).length := by
  refine ⟨Nat.le_refl 0, Nat.zero_le len, h, ?_⟩
  unfold sampleTick
  split
  · split
    · next hlt => simpa using hlt
    · split
      · simp
      · exact h
  · exact h

/-- Witness for C7 at a mid-playback state satisfying the invariant. -/
theorem position_invariant_witness :
    (sampleTick (startPlayback [3, 4] 2 false initState)).position ≤
      (sampleTick (startPlayback [3, 4] 2 false initState)).length ∧
    (initState.position ≤ initState.length ∧
    (startPlayback [8] 1 true (sampleTick (startPlayback [3, 4] 2 false initState))).position ≤
      (startPlayback [8] 1 true (sampleTick (startPlayback [3, 4] 2 false initState))).length ∧
    (stopPlayback (sampleTick (startPlayback [3, 4] 2 false initState))).position ≤
      (stopPlayback (sampleTick (startPlayback [3, 4] 2 false initState))).length ∧
    (sampleTick (sampleTick (startPlayback [3, 4] 2 false initState))).position ≤
      (sampleTick (sampleTick (startPlayback [3, 4] 2 false initState))).length) :=
  ⟨by decide, position_invariant [8] 1 true (sampleTick (startPlayback [3, 4] 2 false initState))
    (by decide)⟩

/-- Under alternate-timer mode the busy-wait reaches any target reading the
given fuel can cover: after polling, the `altMillis` reading is at least
the target. -/
theorem pollWait_reaches (fuel target : Nat) :
    ∀ t : PCMState, t.pwmActive = true → t.useT0 = true →
    target ≤ (t.altClock + fuel) * 16 / 1000 →
    target ≤ altMillis (pollWait fuel target t) := by
  induction fuel with
  | zero =>
      intro t _ _ hb
      simpa [pollWait, altMillis] using hb
  | succ f ih =>
      intro t hp hu hb
      unfold pollWait
      split
      · next hc => exact hc
      · apply ih (pwmTick t) (by simp [pwmTick, hp, hu]) (by simp [pwmTick, hp, hu])
        have hclock : (pwmTick t).altClock = t.altClock + 1 := by simp [pwmTick, hp, hu]
        rw [hclock]
        have harith : t.altClock + 1 + f = t.altClock + (f + 1) := by omega
        rw [harith]
        exact hb

/-- C9: `altMillis` never decreases across a PWM Generator tick (the tick
that advances AltClock), and under alternate-timer mode `altDelay ms`
returns only once the `altMillis` reading has grown by at least `ms`: the
readings sampled before and after the call differ by at least `ms`. -/
theorem altDelay_spec (ms : Nat) (s : PCMState)
    (hp : s.pwmActive = true) (hu : s.useT0 = true) :
    (∀ t : PCMState, altMillis t ≤ altMillis (pwmTick t)) ∧
    altMillis s + ms ≤ altMillis (altDelay ms s) := by
  constructor
  · intro t
    unfold pwmTick altMillis
    split
    · split
      · exact Nat.div_le_div_right (by simp)
      · exact Nat.le_refl _
    · exact Nat.le_refl _
  · unfold altDelay
    apply pollWait_reaches (1000 * ms) (altMillis s + ms) s hp hu
    have hrw : (s.altClock + 1000 * ms) * 16 = s.altClock * 16 + 16 * ms * 1000 := by ring
    rw [hrw, Nat.add_mul_div_right _ _ (by norm_num : (0 : Nat) < 1000), altMillis]
    omega

/-- Witness for C9: `altDelay 50` under alternate-timer mode. -/
theorem altDelay_spec_witness :
    ((startPlayback [1] 1 false (useTimer0 true initState)).pwmActive = true ∧
     (startPlayback [1] 1 false (useTimer0 true initState)).useT0 = true) ∧
    ((∀ t : PCMState, altMillis t ≤ altMillis (pwmTick t)) ∧
     altMillis (startPlayback [1] 1 false (useTimer0 true initState)) + 50 ≤
       altMillis (altDelay 50 (startPlayback [1] 1 false (useTimer0 true initState)))) :=
  ⟨by decide, altDelay_spec 50 (startPlayback [1] 1 false (useTimer0 true initState))
    (by decide) (by decide)⟩
